import Mathlib

/-
Verification of the discovery pipeline in rookie608/YouTubeDataAPI
(src/main.py and src/main_deck-brush.py).

The two scripts share a common core: a retrying HTTP wrapper (yt_get),
paginated keyword search (search_channels, search_channels_multi), a
latest-upload resolver (get_latest_upload_published_at), a per-record
filter stage inside main(), and a sort (plus, in the deck-brush variant,
a dict-based dedup) before export.

External collaborators (the requests library, the re module, datetime
parsing, and the actual network) are modelled as explicit oracle
parameters: an attempt oracle gives the outcome of each requests.get
call, a fetch oracle gives the response of a single API call, a search
oracle stands for re.search with IGNORECASE, and a parse function stands
for datetime.fromisoformat on well-formed inputs (timestamps are
compared as integers).  Everything else is translated directly from the
Python source.
-/

namespace YTD

/-! ### Module-level constants (src/main.py lines 22-47, main_deck-brush.py lines 29-58) -/

def BASE : String := "https://www.googleapis.com/youtube/v3"

def STOP_AFTER_N_RESULTS : Nat := 200

def MIN_SUBSCRIBERS : Nat := 9000

def MAX_SUBSCRIBERS : Nat := 300000

def EXCLUDE_BRANDY_CHANNELS : Bool := true

/-- The exclusion pattern list of src/main.py lines 41-47 (raw regex source strings). -/
def EXCLUDE_NAME_PATTERNS : List String :=
  ["NHK", "日経", "朝日", "毎日", "読売", "産経",
   "テレビ", "TV",
   "Panasonic", "TOTO", "LIXIL", "YKK", "タカラスタンダード",
   "SUUMO", "リクシル", "HOMES?",
   "芸能|有名人|アイドル"]

/-! ### Transport: yt_get (main.py lines 51-74, main_deck-brush.py lines 61-84)

One loop iteration issues requests.get; its outcome is either an HTTP
200 response (whose body resp.json() is returned at once), a non-200
response (recorded in last_resp), or a requests exception (whose repr
is recorded in last_exc).  After the 4 attempts of range(4) are
exhausted, the function returns the error dictionary built from
last_resp / last_exc. -/

/-- Outcome of one requests.get call inside yt_get. -/
inductive Attempt where
  | success (body : String)
  | httpFail (status : Nat) (text : String)
  | netExc (e : String)
deriving DecidableEq

/-- The error dictionary yt_get returns on exhaustion: fields __http_status,
__url, __text, __exc, __params (the "__error__": True tag is the .err
constructor of YtResult). -/
structure YtError where
  httpStatus : Option Nat
  url : String
  textExcerpt : Option String
  exc : Option String
  safeParams : List (String × String)
deriving DecidableEq

/-- Result of yt_get: the parsed JSON body (opaque here) or the error dict. -/
inductive YtResult where
  | ok (body : String)
  | err (e : YtError)
deriving DecidableEq

/-- Python dict update d[k] = v: overwrite in place if the key is present,
append otherwise.  Used to model the merge in params = {**params, "key": API_KEY}. -/
def dictSet (d : List (String × String)) (k v : String) : List (String × String) :=
  if d.any (fun kv => kv.1 == k) then
    d.map (fun kv => if kv.1 == k then (k, v) else kv)
  else d ++ [(k, v)]

/-- The params dict actually sent: params = {**params, "key": API_KEY} (main.py line 54). -/
def mergedParams (params : List (String × String)) (key : String) :
    List (String × String) :=
  dictSet params "key" key

/-- Query-string rendering of the request parameters.  requests percent-encodes
each value; on the characters appearing in this program's parameters and in a
Google API key (unreserved ASCII) the encoding is the identity, so we join the
pairs verbatim. -/
def encodeQuery (ps : List (String × String)) : String :=
  String.intercalate "&" (ps.map (fun kv => kv.1 ++ "=" ++ kv.2))

/-- resp.url of a response obtained from requests.get(f"{BASE}/{path}", params=...):
the prepared full URL, query string included — the key parameter included. -/
def requestUrl (path : String) (params : List (String × String)) (key : String) :
    String :=
  BASE ++ "/" ++ path ++ "?" ++ encodeQuery (mergedParams params key)

/-- The error dictionary built at main.py lines 66-74 from the final
last_resp / last_exc state.  safe_params drops the "key" entry; __url is
last_resp.url when a response was seen, else the bare endpoint. -/
def mkYtError (path : String) (params : List (String × String)) (key : String)
    (lastResp : Option (Nat × String)) (lastExc : Option String) : YtError :=
  { httpStatus := lastResp.map Prod.fst
    url := match lastResp with
      | some _ => requestUrl path params key
      | none => BASE ++ "/" ++ path
    textExcerpt := lastResp.map (fun r => r.2.take 500)
    exc := lastExc
    safeParams := (mergedParams params key).filter (fun kv => kv.1 ≠ "key") }

/-- Duration of the sleep after attempt i: (2 ** i) + random.uniform(0, 0.5),
with the random draw supplied as the jitter oracle (floats modelled as ℚ). -/
def sleepDur (jitter : Nat → ℚ) (i : Nat) : ℚ :=
  (2 ^ i : ℚ) + jitter i

/-- The retry loop of yt_get.  The list holds the outcomes of the remaining
attempts, i is the current loop index, and the accumulated last_resp /
last_exc mirror the Python locals.  Returns the result together with the
list of sleep durations performed, in order. -/
def ytGetGo (path : String) (params : List (String × String)) (key : String)
    (jitter : Nat → ℚ) :
    List Attempt → Nat → Option (Nat × String) → Option String →
    YtResult × List ℚ
  | [], _, lastResp, lastExc =>
    (.err (mkYtError path params key lastResp lastExc), [])
  | a :: rest, i, lastResp, lastExc =>
    match a with
    | .success body => (.ok body, [])
    | .httpFail s t =>
      let r := ytGetGo path params key jitter rest (i + 1) (some (s, t)) lastExc
      (r.1, sleepDur jitter i :: r.2)
    | .netExc e =>
      let r := ytGetGo path params key jitter rest (i + 1) lastResp (some e)
      (r.1, sleepDur jitter i :: r.2)

/-- yt_get (main.py lines 51-74): four attempts (for i in range(4)), then the
structured error value.  attempt i is the outcome of the i-th requests.get. -/
def yt_get (path : String) (params : List (String × String)) (key : String)
    (attempt : Nat → Attempt) (jitter : Nat → ℚ) : YtResult × List ℚ :=
  ytGetGo path params key jitter ((List.range 4).map attempt) 0 none none

/-- Whether an attempt outcome is an HTTP 200 (the early-return case). -/
def isSuccess : Attempt → Bool
  | .success _ => true
  | _ => false

/-- The final value of the last_resp local over a run of attempts. -/
def lastRespOf (l : List Attempt) : Option (Nat × String) :=
  l.foldl (fun acc a => match a with | .httpFail s t => some (s, t) | _ => acc) none

/-- The final value of the last_exc local over a run of attempts. -/
def lastExcOf (l : List Attempt) : Option String :=
  l.foldl (fun acc a => match a with | .netExc e => some e | _ => acc) none

/-! ### Channel discovery: search_channels / search_channels_multi
(main.py lines 99-135, main_deck-brush.py lines 107-142) -/

/-- Response of one search.list call, as consumed by search_channels:
the __error__ tag, or the items (each reduced to snippet.get("channelId"))
plus resp.get("nextPageToken"). -/
inductive SearchResp where
  | fail
  | ok (items : List (Option String)) (nextPageToken : Option String)

/-- Python set insertion ids.add(cid), with the set modelled as its
insertion-ordered list of distinct elements. -/
def setInsert (acc : List String) (x : String) : List String :=
  if x ∈ acc then acc else acc ++ [x]

/-- The inner loop of search_channels: for each item take
snippet.get("channelId") and add it when truthy (present and non-empty). -/
def collectIds (acc : List String) (items : List (Option String)) : List String :=
  items.foldl
    (fun s it =>
      match it with
      | some cid => if cid ≠ "" then setInsert s cid else s
      | none => s)
    acc

/-- The page loop of search_channels; fetch maps a page token to the response
of the corresponding search.list call.  On __error__ the loop warns and
breaks, keeping the ids already collected; a falsy nextPageToken also breaks. -/
def searchChannelsGo (fetch : Option String → SearchResp) :
    Nat → List String → Option String → List String
  | 0, acc, _ => acc
  | n + 1, acc, tok =>
    match fetch tok with
    | .fail => acc
    | .ok items next =>
      let acc' := collectIds acc items
      match next with
      | none => acc'
      | some t => if t = "" then acc' else searchChannelsGo fetch n acc' (some t)

/-- search_channels (main.py lines 99-124): collect channel ids over at most
max_pages pages, returning list(ids). -/
def search_channels (fetch : Option String → SearchResp) (maxPages : Nat) :
    List String :=
  searchChannelsGo fetch maxPages [] none

/-- all_ids.update(batch): fold set insertion over a list of ids. -/
def setUpdate (acc : List String) (l : List String) : List String :=
  l.foldl setInsert acc

/-- The keyword loop of search_channels_multi; single kw stands for the value
of search_channels(kw, max_pages=..., region_code=...) for that keyword (the
fixed per-keyword page data).  After each update the loop breaks once
len(all_ids) >= STOP_AFTER_N_RESULTS * 3. -/
def searchChannelsMultiGo (single : String → List String) :
    List String → List String → List String
  | [], acc => acc
  | kw :: rest, acc =>
    let acc' := setUpdate acc (single kw)
    if STOP_AFTER_N_RESULTS * 3 ≤ acc'.length then acc'
    else searchChannelsMultiGo single rest acc'

/-- search_channels_multi (main.py lines 127-135): union the per-keyword id
sets in keyword order, with the early cumulative-size cutoff. -/
def search_channels_multi (single : String → List String)
    (keywords : List String) : List String :=
  searchChannelsMultiGo single keywords []

/-- The concatenation of all per-keyword results, used to bound the size the
accumulator can reach. -/
def allIds (single : String → List String) : List String → List String
  | [] => []
  | kw :: rest => single kw ++ allIds single rest

/-! ### Activity resolver: get_latest_upload_published_at
(main.py lines 157-172, main_deck-brush.py lines 161-176) -/

/-- Response of the playlistItems.list call, as consumed by the resolver:
the __error__ tag or the items, each reduced to snippet.get("publishedAt"). -/
inductive ApiListResp where
  | fail
  | ok (items : List (Option String))
deriving DecidableEq

/-- An outbound API call the resolver could issue.  videoSearch is the
channel-scoped search.list(order=date) call of the specified fallback path;
playlistItems is the primary lookup the source actually performs. -/
inductive ApiCall where
  | playlistItems (playlistId : String)
  | videoSearch (channelId : String)
deriving DecidableEq

def isVideoSearch : ApiCall → Bool
  | .videoSearch _ => true
  | .playlistItems _ => false

/-- get_latest_upload_published_at together with the trace of every yt_get
call its body issues.  The source: return None on a falsy playlist id (no
call made); otherwise one playlistItems call; on __error__ warn and return
None; on zero items return None; else items[0]["snippet"].get("publishedAt"). -/
def getLatestT (fetch : String → ApiListResp) (uploadsPlaylistId : String) :
    Option String × List ApiCall :=
  if uploadsPlaylistId = "" then (none, [])
  else
    match fetch uploadsPlaylistId with
    | .fail => (none, [.playlistItems uploadsPlaylistId])
    | .ok items =>
      match items with
      | [] => (none, [.playlistItems uploadsPlaylistId])
      | it :: _ => (it, [.playlistItems uploadsPlaylistId])

/-- get_latest_upload_published_at, value only. -/
def get_latest_upload_published_at (fetch : String → ApiListResp)
    (uploadsPlaylistId : String) : Option String :=
  (getLatestT fetch uploadsPlaylistId).1

/-! ### Name exclusion: any_match (main.py lines 181-187) and its use at
lines 242-243. -/

/-- any_match: empty text is never matched; otherwise some pattern must
re.search the text.  search is the re.search(p, text, re.IGNORECASE) oracle. -/
def any_match (search : String → String → Bool) (patterns : List String)
    (text : String) : Bool :=
  if text = "" then false
  else patterns.any (fun p => search p text)

/-- Concrete re.search semantics for metacharacter-free patterns: such a
pattern matches iff it occurs, case-insensitively, as a contiguous substring
of the text.  Used to evaluate the model on concrete inputs whose patterns
contain no regex metacharacters (where this is exactly what re.search does). -/
def leadMatch : List Char → List Char → Bool
  | [], _ => true
  | _ :: _, [] => false
  | a :: as, b :: bs => a == b && leadMatch as bs

def occursIn (p : List Char) : List Char → Bool
  | [] => leadMatch p []
  | b :: bs => leadMatch p (b :: bs) || occursIn p bs

def lowerChars (l : List Char) : List Char :=
  l.map Char.toLower

def reSearchLit (p text : String) : Bool :=
  occursIn (lowerChars p.data) (lowerChars text.data)

/-- The exclusion test of main.py lines 242-243 applied to a record:
any_match(patterns, f"{title} {desc}"), guarded by EXCLUDE_BRANDY_CHANNELS. -/
def nameExcluded (search : String → String → Bool) (patterns : List String)
    (title desc : String) : Bool :=
  EXCLUDE_BRANDY_CHANNELS && any_match search patterns (title ++ " " ++ desc)

/-! ### Filter stage (main.py lines 229-273, main_deck-brush.py lines 231-281) -/

/-- One element of the details list, reduced to the fields the loop reads.
Absent dictionary keys are none; subscriberCount and videoCount carry the
int() value of the statistics strings when present. -/
structure RawChannel where
  id : String
  titleOpt : Option String
  descOpt : Option String
  customUrlOpt : Option String
  subscriberCountOpt : Option Nat
  videoCountOpt : Option Nat
  uploadsOpt : Option String
  publishedAtOpt : Option String
deriving DecidableEq

/-- One element of the results list built by the filter loop (the row dict
of main.py lines 262-273, with the Japanese-named export columns mapped to
field names). -/
structure ResultRow where
  title : String
  handle : String
  channelUrl : String
  handleUrl : String
  subscribers : Nat
  latestIso : String
  videoCount : Option Nat
  channelId : String
  startedAt : Option String
  description : String
deriving DecidableEq

/-- The body of the filter loop for one detail record (main.py lines 230-273):
none means the record was skipped by a continue, some row means it was
appended to results.  parse stands for iso_to_dt on well-formed timestamps
(datetimes compared as integers), cutoff is latest_after_dt, and fetch is the
playlistItems oracle passed through to get_latest_upload_published_at. -/
def processRecord (search : String → String → Bool) (parse : String → Int)
    (fetch : String → ApiListResp) (cutoff : Int) (ch : RawChannel) :
    Option ResultRow :=
  let uploadsId := ch.uploadsOpt.getD ""
  let title := ch.titleOpt.getD ""
  let desc := ch.descOpt.getD ""
  let handle := ch.customUrlOpt.getD ""
  let handleUrl := if handle ≠ "" then "https://www.youtube.com/" ++ handle else ""
  if nameExcluded search EXCLUDE_NAME_PATTERNS title desc then none
  else
    match ch.subscriberCountOpt with
    | none => none
    | some subscribers =>
      let videoCount := ch.videoCountOpt
      if subscribers < MIN_SUBSCRIBERS ∨ MAX_SUBSCRIBERS < subscribers then none
      else
        let latestIso := get_latest_upload_published_at fetch uploadsId
        let latestDt : Option Int :=
          match latestIso with
          | none => none
          | some s => if s = "" then none else some (parse s)
        match latestDt with
        | none => none
        | some d =>
          if d < cutoff then none
          else
            match latestIso with
            | none => none
            | some iso =>
              some { title := title
                     handle := handle
                     channelUrl := "https://www.youtube.com/channel/" ++ ch.id
                     handleUrl := handleUrl
                     subscribers := subscribers
                     latestIso := iso
                     videoCount := videoCount
                     channelId := ch.id
                     startedAt := ch.publishedAtOpt
                     description := desc }

/-- The filter stage of main.py: every record is processed, no cap. -/
def mainFilterStage (search : String → String → Bool) (parse : String → Int)
    (fetch : String → ApiListResp) (cutoff : Int) (details : List RawChannel) :
    List ResultRow :=
  details.filterMap (processRecord search parse fetch cutoff)

/-- The filter loop of main_deck-brush.py lines 231-281: identical record
processing, but after each append the loop breaks once
len(results) >= STOP_AFTER_N_RESULTS. -/
def deckFilterGo (search : String → String → Bool) (parse : String → Int)
    (fetch : String → ApiListResp) (cutoff : Int) :
    List RawChannel → List ResultRow → List ResultRow
  | [], acc => acc
  | ch :: rest, acc =>
    match processRecord search parse fetch cutoff ch with
    | none => deckFilterGo search parse fetch cutoff rest acc
    | some row =>
      let acc' := acc ++ [row]
      if STOP_AFTER_N_RESULTS ≤ acc'.length then acc'
      else deckFilterGo search parse fetch cutoff rest acc'

def deckFilterStage (search : String → String → Bool) (parse : String → Int)
    (fetch : String → ApiListResp) (cutoff : Int) (details : List RawChannel) :
    List ResultRow :=
  deckFilterGo search parse fetch cutoff details []

/-! ### Aggregation (main.py line 280, main_deck-brush.py lines 289-290) -/

/-- The sort key comparison behind
sorted(results, key=lambda x: (x["登録者数（人）"], x["チャンネル名"] or "")):
Python tuple ordering, non-strict.  A row's title is already
""-defaulted at construction, so the key's title component is r.title. -/
def rowLe (a b : ResultRow) : Prop :=
  a.subscribers < b.subscribers ∨
    (a.subscribers = b.subscribers ∧ a.title ≤ b.title)

instance : DecidableRel rowLe := fun a b => by
  unfold rowLe; exact inferInstance

/-- The strict part of the aggregator's key ordering. -/
def keyLt (a b : ResultRow) : Prop :=
  a.subscribers < b.subscribers ∨
    (a.subscribers = b.subscribers ∧ a.title < b.title)

instance : DecidableRel keyLt := fun a b => by
  unfold keyLt; exact inferInstance

/-- The sort key itself. -/
def rowKey (r : ResultRow) : Nat × String :=
  (r.subscribers, r.title)

/-- Python sorted is the stable sort by the key; insertion sort with the
non-strict key comparison computes exactly that. -/
def sortRows (rows : List ResultRow) : List ResultRow :=
  List.insertionSort rowLe rows

/-- uniq[r["channel_id"]] = r on the dict modelled as an insertion-ordered
association list: overwrite in place when the id is present, append otherwise. -/
def updAssoc (acc : List ResultRow) (r : ResultRow) : List ResultRow :=
  if acc.any (fun x => x.channelId == r.channelId) then
    acc.map (fun x => if x.channelId == r.channelId then r else x)
  else acc ++ [r]

/-- uniq = {r["channel_id"]: r for r in results}, then list(uniq.values()):
last write wins per id, first-insertion order of ids. -/
def dedupLWW (rows : List ResultRow) : List ResultRow :=
  rows.foldl updAssoc []

/-- The aggregation step of main.py line 280: sort only, no dedup. -/
def mainAggregate (rows : List ResultRow) : List ResultRow :=
  sortRows rows

/-- The aggregation step of main_deck-brush.py lines 289-290: dict dedup by
channel_id, then the same sort. -/
def deckAggregate (rows : List ResultRow) : List ResultRow :=
  sortRows (dedupLWW rows)

/-! ## Theorems -/

/-- On a run whose remaining attempts all fail, the retry loop returns the
error value built from the final last_resp / last_exc state and performs one
backoff sleep per failed attempt — including the last one. -/
theorem ytGetGo_all_fail (path : String) (params : List (String × String))
    (key : String) (jitter : Nat → ℚ) :
    ∀ (l : List Attempt) (i : Nat) (lr : Option (Nat × String)) (le : Option String),
      (∀ a ∈ l, isSuccess a = false) →
      ytGetGo path params key jitter l i lr le =
        (.err (mkYtError path params key
            (l.foldl (fun acc a => match a with | .httpFail s t => some (s, t) | _ => acc) lr)
            (l.foldl (fun acc a => match a with | .netExc e => some e | _ => acc) le)),
          (List.range l.length).map (fun k => sleepDur jitter (i + k)))
  | [], i, lr, le, _ => by simp [ytGetGo]
  | a :: l, i, lr, le, h => by
    have ha := h a (List.mem_cons_self a l)
    have hrest : ∀ x ∈ l, isSuccess x = false := fun x hx => h x (List.mem_cons_of_mem a hx)
    have harith : (List.range (l.length + 1)).map (fun k => sleepDur jitter (i + k)) =
        sleepDur jitter i :: (List.range l.length).map (fun k => sleepDur jitter (i + 1 + k)) := by
      rw [List.range_succ_eq_map, List.map_cons, List.map_map]
      refine congrArg₂ _ (by rw [Nat.add_zero]) ?_
      apply List.map_congr_left
      intro k _
      show sleepDur jitter (i + (k + 1)) = sleepDur jitter (i + 1 + k)
      congr 1
      omega
    cases a with
    | success body => simp [isSuccess] at ha
    | httpFail s t =>
      have ih := ytGetGo_all_fail path params key jitter l (i + 1) (some (s, t)) le hrest
      show ((ytGetGo path params key jitter l (i + 1) (some (s, t)) le).1,
        sleepDur jitter i :: (ytGetGo path params key jitter l (i + 1) (some (s, t)) le).2) = _
      rw [ih, List.length_cons, harith]
      rfl
    | netExc e =>
      have ih := ytGetGo_all_fail path params key jitter l (i + 1) lr (some e) hrest
      show ((ytGetGo path params key jitter l (i + 1) lr (some e)).1,
        sleepDur jitter i :: (ytGetGo path params key jitter l (i + 1) lr (some e)).2) = _
      rw [ih, List.length_cons, harith]
      rfl

/-- C1: for every Transport call that exhausts its retries, the structured
error value returned by yt_get contains no occurrence of the API credential
in any of its fields.  REFUTED by the code: when any attempt produced a
non-200 response, the __url field is last_resp.url — the full request URL,
whose query string carries key=<credential>.  Here a call with credential
"SECRET123" whose four attempts all return HTTP 500 yields an error value
whose url field contains "SECRET123" verbatim, even though safe_params did
strip the key entry. -/
theorem C1_credential_leaks_into_error_url :
    ∃ e, (yt_get "search" [("part", "snippet")] "SECRET123"
        (fun _ => Attempt.httpFail 500 "quotaExceeded") (fun _ => 0)).1 =
        YtResult.err e ∧
      (∃ s t : String, e.url = s ++ "SECRET123" ++ t) ∧
      e.safeParams = [("part", "snippet")] := by
  refine ⟨_, rfl, ⟨"https://www.googleapis.com/youtube/v3/search?part=snippet&key=", "", ?_⟩, ?_⟩
  · decide
  · decide

/-- C6: when every one of the four attempts fails (non-200 status or network
exception), yt_get returns a structured error value — never an exception —
carrying the status, URL and body excerpt of the last HTTP response seen and
the repr of the last exception seen; and a calling stage receiving an
errored first page (here search_channels) returns its ids collected so far
(the empty list) instead of propagating anything. -/
theorem C6_exhausted_retries_return_error_value
    (path : String) (params : List (String × String)) (key : String)
    (attempt : Nat → Attempt) (jitter : Nat → ℚ)
    (fetch : Option String → SearchResp) (maxPages : Nat)
    (hfail : ∀ a ∈ (List.range 4).map attempt, isSuccess a = false)
    (hfetch : fetch none = SearchResp.fail) :
    (∃ e, (yt_get path params key attempt jitter).1 = YtResult.err e ∧
      e.httpStatus = (lastRespOf ((List.range 4).map attempt)).map Prod.fst ∧
      e.textExcerpt =
        (lastRespOf ((List.range 4).map attempt)).map (fun r => r.2.take 500) ∧
      e.exc = lastExcOf ((List.range 4).map attempt) ∧
      e.url = (match lastRespOf ((List.range 4).map attempt) with
        | some _ => requestUrl path params key
        | none => BASE ++ "/" ++ path)) ∧
    search_channels fetch maxPages = [] := by
  constructor
  · have h := ytGetGo_all_fail path params key jitter ((List.range 4).map attempt)
      0 none none hfail
    have h1 : (yt_get path params key attempt jitter).1 =
        YtResult.err (mkYtError path params key
          (lastRespOf ((List.range 4).map attempt))
          (lastExcOf ((List.range 4).map attempt))) := by
      unfold yt_get
      rw [h]
      rfl
    exact ⟨_, h1, rfl, rfl, rfl, rfl⟩
  · cases maxPages with
    | zero => rfl
    | succ n => simp [search_channels, searchChannelsGo, hfetch]

/-- Witness for C6: four attempts all returning HTTP 500 give an error value
whose status field is 500, and search_channels on an erroring fetch yields []. -/
theorem C6_witness :
    (∀ a ∈ (List.range 4).map (fun _ => Attempt.httpFail 500 "Internal Error"),
      isSuccess a = false) ∧
    ((fun _ : Option String => SearchResp.fail) none = SearchResp.fail) ∧
    ((∃ e, (yt_get "channels" [("part", "id")] "K"
        (fun _ => Attempt.httpFail 500 "Internal Error") (fun _ => 0)).1 =
        YtResult.err e ∧
      e.httpStatus =
        (lastRespOf ((List.range 4).map
          (fun _ => Attempt.httpFail 500 "Internal Error"))).map Prod.fst ∧
      e.textExcerpt =
        (lastRespOf ((List.range 4).map
          (fun _ => Attempt.httpFail 500 "Internal Error"))).map
            (fun r => r.2.take 500) ∧
      e.exc = lastExcOf ((List.range 4).map
        (fun _ => Attempt.httpFail 500 "Internal Error")) ∧
      e.url = (match lastRespOf ((List.range 4).map
          (fun _ => Attempt.httpFail 500 "Internal Error")) with
        | some _ => requestUrl "channels" [("part", "id")] "K"
        | none => BASE ++ "/" ++ "channels")) ∧
      search_channels (fun _ => SearchResp.fail) 1 = []) ∧
    (lastRespOf ((List.range 4).map
      (fun _ => Attempt.httpFail 500 "Internal Error"))).map Prod.fst = some 500 :=
  ⟨by decide, rfl,
    C6_exhausted_retries_return_error_value "channels" [("part", "id")] "K"
      (fun _ => Attempt.httpFail 500 "Internal Error") (fun _ => 0)
      (fun _ => SearchResp.fail) 1 (by decide) rfl,
    by decide⟩

/-- C8 (amended): the backoff sleep (2 ** i) + jitter is performed after
EVERY failed attempt — including the final one.  An execution that exhausts
all four attempts performs exactly four sleeps, of durations
2^0, 2^1, 2^2, 2^3 plus the drawn jitter. -/
theorem C8_sleep_after_every_failed_attempt
    (path : String) (params : List (String × String)) (key : String)
    (attempt : Nat → Attempt) (jitter : Nat → ℚ)
    (hfail : ∀ a ∈ (List.range 4).map attempt, isSuccess a = false) :
    (yt_get path params key attempt jitter).2 =
      [sleepDur jitter 0, sleepDur jitter 1, sleepDur jitter 2, sleepDur jitter 3] := by
  have h := ytGetGo_all_fail path params key jitter ((List.range 4).map attempt)
    0 none none hfail
  unfold yt_get
  rw [h]
  rfl

/-- Witness for C8's amended statement at a concrete all-500 run with zero
jitter: the four sleeps are 1, 2, 4, 8 seconds. -/
theorem C8_sleep_witness :
    (∀ a ∈ (List.range 4).map (fun _ => Attempt.httpFail 500 "e"),
      isSuccess a = false) ∧
    (yt_get "search" [] "K" (fun _ => Attempt.httpFail 500 "e") (fun _ => 0)).2 =
      [sleepDur (fun _ => 0) 0, sleepDur (fun _ => 0) 1,
       sleepDur (fun _ => 0) 2, sleepDur (fun _ => 0) 3] :=
  ⟨by decide,
    C8_sleep_after_every_failed_attempt "search" [] "K"
      (fun _ => Attempt.httpFail 500 "e") (fun _ => 0) (by decide)⟩

/-- C8 counterexample: the claim says the sleep is NOT performed after the
final failing attempt, i.e. an exhausted four-attempt run would sleep three
times.  The code sleeps after every failed attempt: this exhausted run
performs 4 sleeps, not 3. -/
theorem C8_counterexample_sleeps_after_final_attempt :
    ((yt_get "search" [] "K" (fun _ => Attempt.httpFail 500 "e")
        (fun _ => 0)).2).length = 4 ∧
    ((yt_get "search" [] "K" (fun _ => Attempt.httpFail 500 "e")
        (fun _ => 0)).2).length ≠ 3 := by
  constructor
  · rfl
  · decide

/-- C2 counterexample: the claim says the resolver enters a fallback path —
a channel-scoped video search — exactly when the uploads-playlist id is
missing (among other triggers).  With a missing playlist id the source
function returns immediately: it issues no API call at all, in particular no
video search, and resolves nothing. -/
theorem C2_counterexample_no_fallback_search_on_missing_id :
    (getLatestT (fun _ => ApiListResp.ok []) "").2.any isVideoSearch = false ∧
    (getLatestT (fun _ => ApiListResp.ok []) "").2 = [] ∧
    (getLatestT (fun _ => ApiListResp.ok []) "").1 = none :=
  ⟨rfl, rfl, rfl⟩

/-- C2 (amended): the resolver never issues a fallback video search — no
resolvedVia=Fallback outcome exists in this code.  It returns no timestamp
exactly when the uploads-playlist id is missing, the primary playlistItems
call returns a Transport error, the primary lookup succeeds with zero items,
or the first item carries no publishedAt; in every other case it returns the
first item's timestamp. -/
theorem C2_resolver_gives_up_instead_of_falling_back
    (fetch : String → ApiListResp) (pid : String) :
    ((getLatestT fetch pid).2.any isVideoSearch = false) ∧
    ((getLatestT fetch pid).1 = none ↔
      pid = "" ∨ fetch pid = ApiListResp.fail ∨ fetch pid = ApiListResp.ok [] ∨
        ∃ rest, fetch pid = ApiListResp.ok (none :: rest)) := by
  unfold getLatestT
  by_cases hpid : pid = ""
  · simp [hpid, isVideoSearch]
  · rw [if_neg hpid]
    cases hf : fetch pid with
    | fail => simp [hpid, hf, isVideoSearch]
    | ok items =>
      cases items with
      | nil => simp [hpid, hf, isVideoSearch]
      | cons it rest =>
        cases it with
        | none => simp [hpid, hf, isVideoSearch]
        | some ts => simp [hpid, hf, isVideoSearch]

/-- C7: the subscriber predicate of the filter stage rejects a record whose
subscriberCount is absent (hidden by the owner), and rejects a present count
lying outside [MIN_SUBSCRIBERS, MAX_SUBSCRIBERS] — for every search, parse
and activity oracle, i.e. regardless of the record's activity. -/
theorem C7_subscriber_predicate_rejects
    (search : String → String → Bool) (parse : String → Int)
    (fetch : String → ApiListResp) (cutoff : Int) (ch : RawChannel)
    (h : ch.subscriberCountOpt = none ∨
      ∃ n, ch.subscriberCountOpt = some n ∧
        (n < MIN_SUBSCRIBERS ∨ MAX_SUBSCRIBERS < n)) :
    processRecord search parse fetch cutoff ch = none := by
  rcases h with h | ⟨n, hn, hb⟩
  · simp [processRecord, h]
  · simp [processRecord, hn, hb]

/-- The scenario record of the C7 claim: subscriberCount 5000, everything
else unremarkable. -/
def lowSubsChannel : RawChannel :=
  { id := "UC1", titleOpt := none, descOpt := none, customUrlOpt := none,
    subscriberCountOpt := some 5000, videoCountOpt := none,
    uploadsOpt := some "PLup", publishedAtOpt := none }

/-- Witness for C7: the record with subscriberCount 5000 is rejected under
min=9000, max=300000 even though its activity oracle reports a fresh upload. -/
theorem C7_witness :
    (lowSubsChannel.subscriberCountOpt = none ∨
      ∃ n, lowSubsChannel.subscriberCountOpt = some n ∧
        (n < MIN_SUBSCRIBERS ∨ MAX_SUBSCRIBERS < n)) ∧
    processRecord reSearchLit (fun _ => 1)
      (fun _ => ApiListResp.ok [some "2024-06-01T00:00:00Z"]) 0
      lowSubsChannel = none :=
  ⟨Or.inr ⟨5000, rfl, Or.inl (by decide)⟩,
    C7_subscriber_predicate_rejects reSearchLit (fun _ => 1)
      (fun _ => ApiListResp.ok [some "2024-06-01T00:00:00Z"]) 0
      lowSubsChannel (Or.inr ⟨5000, rfl, Or.inl (by decide)⟩)⟩

/-- C9 counterexample: the claim says a record whose title and description
are both empty is never rejected by the name-exclusion predicate, whatever
the pattern set.  The predicate tests f"{title} {desc}", which for two empty
strings is the one-space string " ", not the empty string — so the pattern
set containing the single-space literal pattern does reject it (re.search of
a metacharacter-free pattern is substring containment, here evaluated by
reSearchLit), even though any_match on truly empty text indeed returns False. -/
theorem C9_counterexample_space_pattern_rejects_empty_record :
    nameExcluded reSearchLit [" "] "" "" = true ∧
    any_match reSearchLit [" "] "" = false := by
  constructor
  · decide
  · decide

/-- C9 (amended): any_match returns False on empty text for every pattern
list; but the exclusion predicate applies any_match to title ++ " " ++ desc,
so a record with empty title and description is rejected exactly when some
pattern matches the one-space string — never under pattern sets (such as the
repository's) with no pattern matching a lone space, but not under every
pattern set. -/
theorem C9_empty_text_guard_and_space_concat
    (search : String → String → Bool) :
    (∀ ps : List String, any_match search ps "" = false) ∧
    (∀ ps : List String,
      nameExcluded search ps "" "" = true ↔ ∃ p ∈ ps, search p " " = true) := by
  constructor
  · intro ps
    simp [any_match]
  · intro ps
    have hconcat : ("" : String) ++ " " ++ "" = " " := rfl
    simp [nameExcluded, any_match, EXCLUDE_BRANDY_CHANNELS, hconcat,
      List.any_eq_true]

/-- Writing a row whose id matches cid into the dict leaves exactly that row
under cid, provided the dict held at most one row under cid (its invariant). -/
theorem updAssoc_filter_pos (cid : String) (r : ResultRow) (acc : List ResultRow)
    (hcount : (acc.filter (fun x => x.channelId == cid)).length ≤ 1)
    (hr : (r.channelId == cid) = true) :
    (updAssoc acc r).filter (fun x => x.channelId == cid) = [r] := by
  have hrc : r.channelId = cid := eq_of_beq hr
  unfold updAssoc
  by_cases hany : acc.any (fun x => x.channelId == r.channelId) = true
  · rw [if_pos hany, List.filter_map]
    have hcomp : List.filter ((fun x : ResultRow => x.channelId == cid) ∘
        (fun x => if (x.channelId == r.channelId) = true then r else x)) acc =
        List.filter (fun x : ResultRow => x.channelId == cid) acc := by
      apply List.filter_congr
      intro x _
      by_cases hg : (x.channelId == r.channelId) = true
      · have hxc : x.channelId = cid := by rw [eq_of_beq hg, hrc]
        simp only [Function.comp]
        rw [if_pos hg, hr, hxc]
        simp
      · simp only [Function.comp]
        rw [if_neg hg]
    rw [hcomp]
    have hne : List.filter (fun x : ResultRow => x.channelId == cid) acc ≠ [] := by
      rw [List.any_eq_true] at hany
      rcases hany with ⟨y, hy, hgy⟩
      have hyc : y.channelId = cid := by rw [eq_of_beq hgy, hrc]
      intro hnil
      exact (List.filter_eq_nil_iff.mp hnil y hy) (by simp [hyc])
    have hpos : 0 < (List.filter (fun x : ResultRow => x.channelId == cid) acc).length :=
      List.length_pos.mpr hne
    have hlen1 : (List.filter (fun x : ResultRow => x.channelId == cid) acc).length = 1 := by
      omega
    rcases List.length_eq_one.mp hlen1 with ⟨y, hy⟩
    rw [hy]
    have hpy : (y.channelId == cid) = true := by
      have hmem : y ∈ List.filter (fun x : ResultRow => x.channelId == cid) acc := by
        rw [hy]; exact List.mem_cons_self y []
      exact (List.mem_filter.mp hmem).2
    have hgy : (y.channelId == r.channelId) = true := by
      rw [eq_of_beq hpy, hrc]
      exact beq_self_eq_true cid
    simp only [List.map_cons, List.map_nil]
    rw [if_pos hgy]
  · rw [if_neg hany, List.filter_append]
    have hfnil : List.filter (fun x : ResultRow => x.channelId == cid) acc = [] := by
      rw [List.filter_eq_nil_iff]
      intro y hy hpy
      apply hany
      rw [List.any_eq_true]
      refine ⟨y, hy, ?_⟩
      rw [eq_of_beq hpy, hrc]
      exact beq_self_eq_true cid
    rw [hfnil]
    simp [hr]

/-- Writing a row whose id differs from cid into the dict leaves the rows
under cid unchanged. -/
theorem updAssoc_filter_neg (cid : String) (r : ResultRow) (acc : List ResultRow)
    (hr : (r.channelId == cid) = false) :
    (updAssoc acc r).filter (fun x => x.channelId == cid) =
      acc.filter (fun x => x.channelId == cid) := by
  unfold updAssoc
  by_cases hany : acc.any (fun x => x.channelId == r.channelId) = true
  · rw [if_pos hany, List.filter_map]
    have hcomp : List.filter ((fun x : ResultRow => x.channelId == cid) ∘
        (fun x => if (x.channelId == r.channelId) = true then r else x)) acc =
        List.filter (fun x : ResultRow => x.channelId == cid) acc := by
      apply List.filter_congr
      intro x _
      by_cases hg : (x.channelId == r.channelId) = true
      · have hpx : (x.channelId == cid) = false := by rw [eq_of_beq hg]; exact hr
        simp only [Function.comp]
        rw [if_pos hg, hr, hpx]
      · simp only [Function.comp]
        rw [if_neg hg]
    rw [hcomp]
    have hid : ∀ y ∈ List.filter (fun x : ResultRow => x.channelId == cid) acc,
        (if (y.channelId == r.channelId) = true then r else y) = y := by
      intro y hy
      have hpy := (List.mem_filter.mp hy).2
      have hf : (y.channelId == r.channelId) = false := by
        rcases Bool.eq_false_or_eq_true (y.channelId == r.channelId) with hb | hb
        · exfalso
          have h1 : y.channelId = r.channelId := eq_of_beq hb
          have h2 : y.channelId = cid := eq_of_beq hpy
          rw [← h1, h2] at hr
          simp at hr
        · exact hb
      rw [if_neg (by simp [hf])]
    rw [List.map_congr_left hid]
    exact List.map_id _
  · rw [if_neg hany, List.filter_append]
    simp [hr]

/-- The dict invariant — at most one stored row per id — is preserved by a
write. -/
theorem updAssoc_filter_len (cid : String) (r : ResultRow) (acc : List ResultRow)
    (h : (acc.filter (fun x => x.channelId == cid)).length ≤ 1) :
    ((updAssoc acc r).filter (fun x => x.channelId == cid)).length ≤ 1 := by
  rcases Bool.eq_false_or_eq_true (r.channelId == cid) with hr | hr
  · rw [updAssoc_filter_pos cid r acc h hr]; simp
  · rw [updAssoc_filter_neg cid r acc hr]; exact h

/-- Folding rows into the dict leaves, under each id, exactly the last
written row with that id (or the dict's previous content when none arrived). -/
theorem dedupGo_filter (cid : String) :
    ∀ (rows : List ResultRow) (acc : List ResultRow),
      (acc.filter (fun x => x.channelId == cid)).length ≤ 1 →
      (rows.foldl updAssoc acc).filter (fun x => x.channelId == cid) =
        (match (rows.filter (fun x => x.channelId == cid)).getLast? with
         | some r => [r]
         | none => acc.filter (fun x => x.channelId == cid))
  | [], acc, _ => by simp
  | r :: rest, acc, h => by
    rw [List.foldl_cons]
    have hlen := updAssoc_filter_len cid r acc h
    have ih := dedupGo_filter cid rest (updAssoc acc r) hlen
    rcases Bool.eq_false_or_eq_true (r.channelId == cid) with hr | hr
    · have hstep : List.filter (fun x : ResultRow => x.channelId == cid) (r :: rest) =
          r :: List.filter (fun x : ResultRow => x.channelId == cid) rest :=
        List.filter_cons_of_pos hr
      rw [hstep, ih, updAssoc_filter_pos cid r acc h hr]
      cases hfr : rest.filter (fun x => x.channelId == cid) with
      | nil => simp
      | cons y ys =>
        rw [List.getLast?_cons_cons]
        have hsome : ((y :: ys).getLast?).isSome = true := by
          rw [List.getLast?_isSome]; simp
        rcases Option.isSome_iff_exists.mp hsome with ⟨z, hz⟩
        rw [hz]
    · have hstep : List.filter (fun x : ResultRow => x.channelId == cid) (r :: rest) =
          List.filter (fun x : ResultRow => x.channelId == cid) rest :=
        List.filter_cons_of_neg (by simp [hr])
      rw [hstep, ih, updAssoc_filter_neg cid r acc hr]

/-- An input row for the duplicate-id scenario (the earlier snapshot). -/
def dupRowEarly : ResultRow :=
  { title := "Early", handle := "", channelUrl := "https://www.youtube.com/channel/UC1",
    handleUrl := "", subscribers := 10000, latestIso := "2024-06-01T00:00:00Z",
    videoCount := none, channelId := "UC1", startedAt := none, description := "" }

/-- The later snapshot for the same channel id. -/
def dupRowLate : ResultRow :=
  { dupRowEarly with title := "Late", subscribers := 20000 }

/-- C4 counterexample: the claim says "the aggregation step" (citing both
scripts) folds duplicate ChannelIds into exactly one row.  main.py's
aggregation step only sorts: feeding it two distinct rows with the same
channel id leaves both in the output. -/
theorem C4_counterexample_main_aggregation_keeps_duplicates :
    dupRowEarly.channelId = dupRowLate.channelId ∧
    dupRowEarly ≠ dupRowLate ∧
    (mainAggregate [dupRowEarly, dupRowLate]).countP
      (fun r => r.channelId == "UC1") = 2 := by
  refine ⟨rfl, by decide, by decide⟩

/-- C4 (amended): in main_deck-brush.py the aggregation step is total,
last-write-wins dedup: for every input and every channel id, the output
retains exactly the last-occurring input row with that id (and nothing when
the id never occurs).  main.py's aggregation step performs no dedup. -/
theorem C4_deck_aggregation_is_last_write_wins
    (rows : List ResultRow) (cid : String) :
    (deckAggregate rows).filter (fun r => r.channelId == cid) =
      ((rows.filter (fun r => r.channelId == cid)).getLast?).toList := by
  have hperm : ((deckAggregate rows).filter (fun r => r.channelId == cid)).Perm
      ((dedupLWW rows).filter (fun r => r.channelId == cid)) :=
    List.Perm.filter _ (List.perm_insertionSort rowLe (dedupLWW rows))
  have hd := dedupGo_filter cid rows [] (by simp)
  unfold dedupLWW at hperm
  rw [hd] at hperm
  cases hlast : (rows.filter (fun r => r.channelId == cid)).getLast? with
  | none =>
    rw [hlast] at hperm
    simp only [List.filter_nil] at hperm
    have h0 := hperm.length_eq
    simp only [List.length_nil] at h0
    rw [List.length_eq_zero] at h0
    rw [h0]
    rfl
  | some z =>
    rw [hlast] at hperm
    exact List.perm_singleton.mp hperm

/-- A result row; its twin below differs only outside the sort key. -/
def tiedRowA : ResultRow :=
  { title := "Same", handle := "", channelUrl := "", handleUrl := "",
    subscribers := 10000, latestIso := "", videoCount := none,
    channelId := "UC1", startedAt := none, description := "" }

/-- Same subscriberCount and title as tiedRowA, different channel id. -/
def tiedRowB : ResultRow :=
  { tiedRowA with channelId := "UC2" }

/-- C5 counterexample: the aggregator's key ordering is NOT a strict total
order on rows — these two distinct rows agree on (subscriberCount, title),
so neither a < b nor b < a holds under the sort key. -/
theorem C5_counterexample_distinct_rows_incomparable :
    tiedRowA ≠ tiedRowB ∧ ¬ keyLt tiedRowA tiedRowB ∧ ¬ keyLt tiedRowB tiedRowA := by
  have hA : tiedRowA.subscribers = 10000 := rfl
  have hB : tiedRowB.subscribers = 10000 := rfl
  have hTA : tiedRowA.title = "Same" := rfl
  have hTB : tiedRowB.title = "Same" := rfl
  refine ⟨by decide, ?_, ?_⟩
  · intro hk
    unfold keyLt at hk
    rcases hk with h | ⟨_, h⟩
    · rw [hA, hB] at h; omega
    · rw [hTA, hTB] at h; exact lt_irrefl _ h
  · intro hk
    unfold keyLt at hk
    rcases hk with h | ⟨_, h⟩
    · rw [hA, hB] at h; omega
    · rw [hTA, hTB] at h; exact lt_irrefl _ h

/-- C5 (amended): the aggregator's ordering is a strict weak order: its
strict part keyLt is exactly "rowLe and not its converse", and for any two
rows exactly one of keyLt a b, keyLt b a, equal keys holds.  Rows that are
distinct but share (subscriberCount, title) — see the counterexample — are
key-equal, and the stable deterministic sort still yields identical output
on identical input. -/
theorem C5_key_order_trichotomy (a b : ResultRow) :
    (keyLt a b ↔ (rowLe a b ∧ ¬ rowLe b a)) ∧
    ((keyLt a b ∧ ¬ keyLt b a ∧ rowKey a ≠ rowKey b) ∨
     (keyLt b a ∧ ¬ keyLt a b ∧ rowKey a ≠ rowKey b) ∨
     (rowKey a = rowKey b ∧ ¬ keyLt a b ∧ ¬ keyLt b a)) := by
  unfold keyLt rowLe rowKey
  constructor
  · constructor
    · rintro (h | ⟨he, hl⟩)
      · refine ⟨Or.inl h, ?_⟩
        rintro (h2 | ⟨he2, _⟩) <;> omega
      · refine ⟨Or.inr ⟨he, le_of_lt hl⟩, ?_⟩
        rintro (h2 | ⟨he2, hle2⟩)
        · omega
        · exact absurd hle2 (not_le_of_lt hl)
    · rintro ⟨h1, h2⟩
      rcases h1 with h1 | ⟨he, hle⟩
      · exact Or.inl h1
      · push_neg at h2
        rcases h2 with ⟨h2a, h2b⟩
        exact Or.inr ⟨he, h2b he.symm⟩
  · rcases Nat.lt_trichotomy a.subscribers b.subscribers with h | h | h
    · refine Or.inl ⟨Or.inl h, ?_, ?_⟩
      · rintro (h2 | ⟨he2, _⟩) <;> omega
      · intro hk
        have := congrArg Prod.fst hk
        simp at this
        omega
    · rcases lt_trichotomy a.title b.title with ht | ht | ht
      · refine Or.inl ⟨Or.inr ⟨h, ht⟩, ?_, ?_⟩
        · rintro (h2 | ⟨he2, ht2⟩)
          · omega
          · exact absurd ht2 (lt_asymm ht)
        · intro hk
          have := congrArg Prod.snd hk
          simp at this
          exact absurd this (ne_of_lt ht)
      · refine Or.inr (Or.inr ⟨?_, ?_, ?_⟩)
        · rw [h, ht]
        · rintro (h2 | ⟨_, ht2⟩)
          · omega
          · rw [ht] at ht2; exact lt_irrefl _ ht2
        · rintro (h2 | ⟨_, ht2⟩)
          · omega
          · rw [ht] at ht2; exact lt_irrefl _ ht2
      · refine Or.inr (Or.inl ⟨Or.inr ⟨h.symm, ht⟩, ?_, ?_⟩)
        · rintro (h2 | ⟨he2, ht2⟩)
          · omega
          · exact absurd ht2 (lt_asymm ht)
        · intro hk
          have := congrArg Prod.snd hk
          simp at this
          rw [this] at ht
          exact lt_irrefl _ ht
    · refine Or.inr (Or.inl ⟨Or.inl h, ?_, ?_⟩)
      · rintro (h2 | ⟨he2, _⟩) <;> omega
      · intro hk
        have := congrArg Prod.fst hk
        simp at this
        omega

/-- The deck-brush filter loop never lets the results list grow past the cap:
entered with fewer than STOP_AFTER_N_RESULTS accepted rows, it ends with at
most STOP_AFTER_N_RESULTS. -/
theorem deckFilterGo_length_le (search : String → String → Bool)
    (parse : String → Int) (fetch : String → ApiListResp) (cutoff : Int) :
    ∀ (details : List RawChannel) (acc : List ResultRow),
      acc.length < STOP_AFTER_N_RESULTS →
      (deckFilterGo search parse fetch cutoff details acc).length ≤
        STOP_AFTER_N_RESULTS
  | [], acc, h => by unfold deckFilterGo; omega
  | ch :: rest, acc, h => by
    unfold deckFilterGo
    cases hpr : processRecord search parse fetch cutoff ch with
    | none => exact deckFilterGo_length_le search parse fetch cutoff rest acc h
    | some row =>
      show (if STOP_AFTER_N_RESULTS ≤ (acc ++ [row]).length then acc ++ [row]
            else deckFilterGo search parse fetch cutoff rest (acc ++ [row])).length ≤
          STOP_AFTER_N_RESULTS
      have hla : (acc ++ [row]).length = acc.length + 1 := by simp
      by_cases hlen : STOP_AFTER_N_RESULTS ≤ (acc ++ [row]).length
      · rw [if_pos hlen]
        omega
      · rw [if_neg hlen]
        apply deckFilterGo_length_le
        omega

/-- A dict write grows the association list by at most one entry. -/
theorem updAssoc_length_le (acc : List ResultRow) (r : ResultRow) :
    (updAssoc acc r).length ≤ acc.length + 1 := by
  unfold updAssoc
  split
  · simp
  · simp

/-- Folding rows into the dict cannot make it longer than input plus initial. -/
theorem dedupGo_length_le : ∀ (rows : List ResultRow) (acc : List ResultRow),
    (rows.foldl updAssoc acc).length ≤ acc.length + rows.length
  | [], acc => by simp
  | r :: rest, acc => by
    rw [List.foldl_cons]
    have h1 := dedupGo_length_le rest (updAssoc acc r)
    have h2 := updAssoc_length_le acc r
    simp only [List.length_cons]
    omega

/-- A detail record every active predicate accepts (under the concrete
oracles used below). -/
def plainChannel : RawChannel :=
  { id := "UCplain", titleOpt := none, descOpt := none, customUrlOpt := none,
    subscriberCountOpt := some 10000, videoCountOpt := none,
    uploadsOpt := some "PLx", publishedAtOpt := none }

/-- 201 copies of the accepted record — more than the deck-brush cap. -/
def manyChannels : List RawChannel :=
  List.replicate 201 plainChannel

/-- filterMap over n copies of an accepted element yields n results. -/
theorem filterMap_replicate_length (f : RawChannel → Option ResultRow)
    (a : RawChannel) (h : (f a).isSome = true) :
    ∀ n, (List.filterMap f (List.replicate n a)).length = n
  | 0 => rfl
  | n + 1 => by
    have ih := filterMap_replicate_length f a h n
    rw [List.replicate_succ, List.filterMap_cons]
    cases hfa : f a with
    | none => rw [hfa] at h; simp at h
    | some b => simp only [List.length_cons, ih]

/-- C10: the main_deck-brush.py filter loop stops accepting records once
STOP_AFTER_N_RESULTS (200) are accepted, so for every input the filter
output — and after dedup and sort the exported sequence — has at most 200
rows; main.py imposes no such cap: 201 accepted records all survive its
filter stage. -/
theorem C10_deck_caps_results_main_does_not :
    (∀ (search : String → String → Bool) (parse : String → Int)
        (fetch : String → ApiListResp) (cutoff : Int) (details : List RawChannel),
      (deckFilterStage search parse fetch cutoff details).length ≤
        STOP_AFTER_N_RESULTS ∧
      (deckAggregate (deckFilterStage search parse fetch cutoff details)).length ≤
        STOP_AFTER_N_RESULTS) ∧
    STOP_AFTER_N_RESULTS <
      (mainFilterStage reSearchLit (fun _ => 1)
        (fun _ => ApiListResp.ok [some "2024-06-01T00:00:00Z"]) 0
        manyChannels).length := by
  constructor
  · intro search parse fetch cutoff details
    have hcap : (deckFilterStage search parse fetch cutoff details).length ≤
        STOP_AFTER_N_RESULTS :=
      deckFilterGo_length_le search parse fetch cutoff details [] (by decide)
    refine ⟨hcap, ?_⟩
    have hsort : (deckAggregate (deckFilterStage search parse fetch cutoff details)).length =
        (dedupLWW (deckFilterStage search parse fetch cutoff details)).length :=
      (List.perm_insertionSort rowLe _).length_eq
    have hded := dedupGo_length_le (deckFilterStage search parse fetch cutoff details) []
    have hfold : (dedupLWW (deckFilterStage search parse fetch cutoff details)).length =
        ((deckFilterStage search parse fetch cutoff details).foldl updAssoc []).length := rfl
    simp only [List.length_nil, Nat.zero_add] at hded
    omega
  · have hsome : (processRecord reSearchLit (fun _ => 1)
        (fun _ => ApiListResp.ok [some "2024-06-01T00:00:00Z"]) 0 plainChannel).isSome =
        true := by decide
    have hlen : (mainFilterStage reSearchLit (fun _ => 1)
        (fun _ => ApiListResp.ok [some "2024-06-01T00:00:00Z"]) 0 manyChannels).length =
        201 :=
      filterMap_replicate_length _ plainChannel hsome 201
    rw [hlen]
    decide

/-! ### Set lemmas for the discovery stage (C3) -/

theorem setInsert_mem (acc : List String) (x y : String) :
    y ∈ setInsert acc x ↔ y ∈ acc ∨ y = x := by
  unfold setInsert
  by_cases h : x ∈ acc
  · rw [if_pos h]
    constructor
    · exact Or.inl
    · rintro (hy | rfl)
      · exact hy
      · exact h
  · rw [if_neg h]
    simp

theorem setInsert_nodup (acc : List String) (x : String) (h : acc.Nodup) :
    (setInsert acc x).Nodup := by
  unfold setInsert
  by_cases hx : x ∈ acc
  · rw [if_pos hx]; exact h
  · rw [if_neg hx]
    rw [List.nodup_append]
    refine ⟨h, List.nodup_singleton x, ?_⟩
    intro a ha hax
    rw [List.mem_singleton] at hax
    exact hx (hax ▸ ha)

theorem setUpdate_mem : ∀ (l acc : List String) (y : String),
    y ∈ setUpdate acc l ↔ y ∈ acc ∨ y ∈ l
  | [], acc, y => by simp [setUpdate]
  | a :: l, acc, y => by
    have ih := setUpdate_mem l (setInsert acc a) y
    unfold setUpdate at ih ⊢
    rw [List.foldl_cons, ih, setInsert_mem]
    simp [List.mem_cons, or_assoc]

theorem setUpdate_nodup : ∀ (l acc : List String), acc.Nodup → (setUpdate acc l).Nodup
  | [], _, h => h
  | a :: l, acc, h => by
    have ih := setUpdate_nodup l (setInsert acc a) (setInsert_nodup acc a h)
    unfold setUpdate at ih ⊢
    rw [List.foldl_cons]
    exact ih

theorem setUpdate_length_of_nodup : ∀ (l acc : List String), l.Nodup →
    (∀ x ∈ l, x ∉ acc) → (setUpdate acc l).length = acc.length + l.length
  | [], acc, _, _ => by simp [setUpdate]
  | a :: l, acc, hn, hd => by
    have hna : a ∉ acc := hd a (List.mem_cons_self a l)
    have hstep : setInsert acc a = acc ++ [a] := if_neg hna
    have hdl : ∀ x ∈ l, x ∉ acc ++ [a] := by
      intro x hx
      simp only [List.mem_append, List.mem_singleton]
      rintro (hc | rfl)
      · exact hd x (List.mem_cons_of_mem a hx) hc
      · exact (List.nodup_cons.mp hn).1 hx
    have ih := setUpdate_length_of_nodup l (acc ++ [a]) (List.nodup_cons.mp hn).2 hdl
    unfold setUpdate at ih ⊢
    rw [List.foldl_cons, hstep, ih]
    have h2 : (acc ++ [a]).length = acc.length + 1 := by simp
    simp only [List.length_cons]
    omega

/-- A duplicate-free list contained in W is no longer than W's distinct size. -/
theorem nodup_subset_dedup_length (l W : List String) (hn : l.Nodup)
    (hs : ∀ x ∈ l, x ∈ W) : l.length ≤ W.dedup.length := by
  have h1 : l.toFinset.card = l.length := List.toFinset_card_of_nodup hn
  have h2 : l.toFinset ⊆ W.toFinset := by
    intro x hx
    rw [List.mem_toFinset] at hx ⊢
    exact hs x hx
  have h3 := Finset.card_le_card h2
  simp only [List.card_toFinset] at h1 h3
  omega

/-- While every id seen fits inside a pool W of fewer than 600 distinct ids,
the early-stop condition of search_channels_multi never fires and the loop is
a plain fold of set updates. -/
theorem multiGo_no_break (single : String → List String) (W : List String)
    (hW : W.dedup.length < STOP_AFTER_N_RESULTS * 3) :
    ∀ (kws : List String) (acc : List String), acc.Nodup →
      (∀ x ∈ acc, x ∈ W) → (∀ kw ∈ kws, ∀ x ∈ single kw, x ∈ W) →
      searchChannelsMultiGo single kws acc =
        kws.foldl (fun a kw => setUpdate a (single kw)) acc
  | [], _, _, _, _ => rfl
  | kw :: kws, acc, hn, hs, hk => by
    have hn' : (setUpdate acc (single kw)).Nodup := setUpdate_nodup _ _ hn
    have hs' : ∀ x ∈ setUpdate acc (single kw), x ∈ W := by
      intro x hx
      rcases (setUpdate_mem _ _ _).mp hx with hx | hx
      · exact hs x hx
      · exact hk kw (List.mem_cons_self kw kws) x hx
    have hlt : (setUpdate acc (single kw)).length < STOP_AFTER_N_RESULTS * 3 :=
      lt_of_le_of_lt (nodup_subset_dedup_length _ W hn' hs') hW
    have hk' : ∀ k ∈ kws, ∀ x ∈ single k, x ∈ W :=
      fun k hkm => hk k (List.mem_cons_of_mem kw hkm)
    show (if STOP_AFTER_N_RESULTS * 3 ≤ (setUpdate acc (single kw)).length
          then setUpdate acc (single kw)
          else searchChannelsMultiGo single kws (setUpdate acc (single kw))) = _
    rw [if_neg (by omega), List.foldl_cons]
    exact multiGo_no_break single W hW kws (setUpdate acc (single kw)) hn' hs' hk'

theorem foldl_setUpdate_mem (single : String → List String) :
    ∀ (kws : List String) (acc : List String) (x : String),
      x ∈ kws.foldl (fun a kw => setUpdate a (single kw)) acc ↔
        x ∈ acc ∨ ∃ kw ∈ kws, x ∈ single kw
  | [], acc, x => by simp
  | kw :: kws, acc, x => by
    rw [List.foldl_cons, foldl_setUpdate_mem single kws (setUpdate acc (single kw)) x,
      setUpdate_mem]
    constructor
    · rintro ((h | h) | ⟨k, hk, hx⟩)
      · exact Or.inl h
      · exact Or.inr ⟨kw, List.mem_cons_self kw kws, h⟩
      · exact Or.inr ⟨k, List.mem_cons_of_mem kw hk, hx⟩
    · rintro (h | ⟨k, hk, hx⟩)
      · exact Or.inl (Or.inl h)
      · rcases List.mem_cons.mp hk with rfl | hk
        · exact Or.inl (Or.inr hx)
        · exact Or.inr ⟨k, hk, hx⟩

theorem allIds_mem (single : String → List String) :
    ∀ (kws : List String) (x : String),
      x ∈ allIds single kws ↔ ∃ kw ∈ kws, x ∈ single kw
  | [], x => by simp [allIds]
  | kw :: kws, x => by
    unfold allIds
    rw [List.mem_append, allIds_mem single kws x]
    constructor
    · rintro (h | ⟨k, hk, hx⟩)
      · exact ⟨kw, List.mem_cons_self kw kws, h⟩
      · exact ⟨k, List.mem_cons_of_mem kw hk, hx⟩
    · rintro ⟨k, hk, hx⟩
      rcases List.mem_cons.mp hk with rfl | hk
      · exact Or.inl hx
      · exact Or.inr ⟨k, hk, hx⟩

/-- C3 (amended): permuting the keyword order does not change the returned
id set PROVIDED the run never reaches the 600-id early-stop cutoff — e.g.
whenever the keywords' combined results hold fewer than 600 distinct ids.
(The unconditional claim fails: see the counterexample.) -/
theorem C3_perm_invariant_below_cutoff (single : String → List String)
    (kws kws' : List String) (x : String) (hp : kws.Perm kws')
    (hsize : (allIds single kws).dedup.length < STOP_AFTER_N_RESULTS * 3) :
    (x ∈ search_channels_multi single kws ↔
      x ∈ search_channels_multi single kws') := by
  have hk1 : ∀ kw ∈ kws, ∀ y ∈ single kw, y ∈ allIds single kws :=
    fun kw hkw y hy => (allIds_mem single kws y).mpr ⟨kw, hkw, hy⟩
  have hk2 : ∀ kw ∈ kws', ∀ y ∈ single kw, y ∈ allIds single kws :=
    fun kw hkw y hy => (allIds_mem single kws y).mpr ⟨kw, hp.mem_iff.mpr hkw, hy⟩
  have h1 := multiGo_no_break single (allIds single kws) hsize kws []
    List.nodup_nil (by simp) hk1
  have h2 := multiGo_no_break single (allIds single kws) hsize kws' []
    List.nodup_nil (by simp) hk2
  unfold search_channels_multi
  rw [h1, h2, foldl_setUpdate_mem, foldl_setUpdate_mem]
  simp only [List.not_mem_nil, false_or]
  constructor
  · rintro ⟨k, hk, hx⟩
    exact ⟨k, hp.mem_iff.mp hk, hx⟩
  · rintro ⟨k, hk, hx⟩
    exact ⟨k, hp.mem_iff.mpr hk, hx⟩

/-- Witness for C3's amended statement: two keywords with one id each stay
far below the cutoff, and either order yields a set containing "A". -/
theorem C3_perm_invariant_witness :
    List.Perm ["k1", "k2"] ["k2", "k1"] ∧
    (allIds (fun kw => if kw = "k1" then ["A"] else ["B"]) ["k1", "k2"]).dedup.length <
      STOP_AFTER_N_RESULTS * 3 ∧
    ("A" ∈ search_channels_multi (fun kw => if kw = "k1" then ["A"] else ["B"])
        ["k1", "k2"] ↔
      "A" ∈ search_channels_multi (fun kw => if kw = "k1" then ["A"] else ["B"])
        ["k2", "k1"]) :=
  ⟨by decide, by decide,
    C3_perm_invariant_below_cutoff (fun kw => if kw = "k1" then ["A"] else ["B"])
      ["k1", "k2"] ["k2", "k1"] "A" (by decide) (by decide)⟩

/-- 600 distinct channel ids, enough for a single keyword (12 pages of 50)
to trip the early-stop threshold by itself. -/
def bigIds : List String :=
  (List.range (STOP_AFTER_N_RESULTS * 3)).map
    (fun n => String.mk (List.replicate (n + 1) 'a'))

/-- Per-keyword page data for the counterexample: one keyword yields the 600
ids, every other keyword yields the single id "zz". -/
def cxSingle : String → List String :=
  fun kw => if kw = "kw-big" then bigIds else ["zz"]

theorem bigIds_nodup : bigIds.Nodup := by
  unfold bigIds
  apply List.Nodup.map
  · intro m n h
    have hd : List.replicate (m + 1) 'a' = List.replicate (n + 1) 'a' :=
      congrArg String.data h
    have hl := congrArg List.length hd
    simp only [List.length_replicate] at hl
    omega
  · exact List.nodup_range _

theorem zz_not_mem_bigIds : "zz" ∉ bigIds := by
  unfold bigIds
  intro hmem
  rcases List.mem_map.mp hmem with ⟨n, _, hn⟩
  have hd : List.replicate (n + 1) 'a' = "zz".data := congrArg String.data hn
  have hz : 'z' ∈ List.replicate (n + 1) 'a' := by
    rw [hd]
    decide
  have := List.eq_of_mem_replicate hz
  exact absurd this (by decide)

theorem bigIds_length : bigIds.length = STOP_AFTER_N_RESULTS * 3 := by
  unfold bigIds
  simp

/-- C3 counterexample: with fixed per-keyword page data, keyword order CAN
change the returned set.  When the big keyword comes first, its 600 ids trip
the len(all_ids) >= STOP_AFTER_N_RESULTS * 3 break and "zz" is never
collected; with the other order "zz" is in the result. -/
theorem C3_counterexample_keyword_order_changes_set :
    List.Perm ["kw-big", "other"] ["other", "kw-big"] ∧
    "zz" ∈ search_channels_multi cxSingle ["other", "kw-big"] ∧
    "zz" ∉ search_channels_multi cxSingle ["kw-big", "other"] := by
  have hbig : cxSingle "kw-big" = bigIds := by simp [cxSingle]
  have hlen : (setUpdate [] bigIds).length = STOP_AFTER_N_RESULTS * 3 := by
    have h := setUpdate_length_of_nodup bigIds [] bigIds_nodup (by simp)
    rw [h, bigIds_length]
    simp
  have hother : cxSingle "other" = ["zz"] := rfl
  have hsmall : setUpdate [] (cxSingle "other") = ["zz"] := by
    rw [hother]
    rfl
  refine ⟨by decide, ?_, ?_⟩
  · have h1 : search_channels_multi cxSingle ["other", "kw-big"] =
        searchChannelsMultiGo cxSingle ["kw-big"] ["zz"] := by
      show (if STOP_AFTER_N_RESULTS * 3 ≤ (setUpdate [] (cxSingle "other")).length
            then setUpdate [] (cxSingle "other")
            else searchChannelsMultiGo cxSingle ["kw-big"] (setUpdate [] (cxSingle "other"))) =
          searchChannelsMultiGo cxSingle ["kw-big"] ["zz"]
      rw [hsmall, if_neg (by decide)]
    have h2 : searchChannelsMultiGo cxSingle ["kw-big"] ["zz"] =
        setUpdate ["zz"] bigIds := by
      show (if STOP_AFTER_N_RESULTS * 3 ≤ (setUpdate ["zz"] (cxSingle "kw-big")).length
            then setUpdate ["zz"] (cxSingle "kw-big")
            else searchChannelsMultiGo cxSingle [] (setUpdate ["zz"] (cxSingle "kw-big"))) =
          setUpdate ["zz"] bigIds
      rw [hbig]
      split
      · rfl
      · rfl
    rw [h1, h2]
    exact (setUpdate_mem bigIds ["zz"] "zz").mpr (Or.inl (by decide))
  · have h3 : search_channels_multi cxSingle ["kw-big", "other"] =
        setUpdate [] bigIds := by
      show (if STOP_AFTER_N_RESULTS * 3 ≤ (setUpdate [] (cxSingle "kw-big")).length
            then setUpdate [] (cxSingle "kw-big")
            else searchChannelsMultiGo cxSingle ["other"] (setUpdate [] (cxSingle "kw-big"))) =
          setUpdate [] bigIds
      rw [hbig, if_pos (by omega)]
    rw [h3]
    intro hmem
    rcases (setUpdate_mem bigIds [] "zz").mp hmem with hx | hx
    · exact absurd hx (by decide)
    · exact zz_not_mem_bigIds hx

end YTD
